import Mathlib

/-!
Verification of the Tules terminal session browser core.

Shallow embedding of the algorithmic core of the repository:

* `paginate_content` — the text paginator of `Tules-sessions.py`;
* `get_key` — the raw-mode keystroke decoder of `Tules-sessions.py`;
* `handle_key` / `redraw_clamp` — the browser state machine of
  `interactive_session_browser` in `Tules-sessions.py`;
* `split_markdown_and_code` — the markdown/code-fence splitter of
  `tui_renderer.py`, together with an exact model of the backtracking
  regular expression `FENCE_PATTERN`.

Text is modelled as `List Char` (the character sequence of the Python
string); Python integers are modelled as `Int`.
-/

namespace Tules

/-- ASCII part of Python's whitespace character class (`str.strip()` and
the regex class `\s` both use it on the inputs considered here): space,
tab, newline, carriage return, vertical tab, form feed. -/
def pyIsSpace (c : Char) : Bool :=
  c = ' ' || c = '\t' || c = '\n' || c = '\r' || c = Char.ofNat 11 || c = Char.ofNat 12

/-- ASCII part of Python's word character class `\w`: letters, digits,
underscore. -/
def pyIsWord (c : Char) : Bool :=
  c.isAlphanum || c = '_'

/-- The backtick character (U+0060). -/
def btick : Char := Char.ofNat 96

/-!
Text paginator: `paginate_content`, `Tules-sessions.py` lines 200–218.
-/

/-- Python's `content.split('\n')`: naive split on newline characters.
An empty string splits to one empty line, and a trailing newline
contributes a final empty line. -/
def splitOnNl : List Char → List (List Char)
  | [] => [[]]
  | c :: rest =>
    match splitOnNl rest with
    | [] => [[]]
    | first :: others =>
      if c = '\n' then [] :: first :: others else (c :: first) :: others

/-- Python's `'\n'.join(lines)`. -/
def joinNl (lines : List (List Char)) : List Char :=
  List.intercalate ['\n'] lines

/-- Python list slicing `l[i:j]` (step 1): a negative bound counts from the
end of the list, then both bounds are clamped into `[0, len(l)]`. -/
def pySlice {α : Type} (l : List α) (i j : Int) : List α :=
  let n : Int := l.length
  let i' := if i < 0 then i + n else i
  let j' := if j < 0 then j + n else j
  let ic := (max 0 (min i' n)).toNat
  let jc := (max 0 (min j' n)).toNat
  (l.take jc).drop ic

/-- Model of `paginate_content(content, scroll_offset, page_height)` from
`Tules-sessions.py`: split into lines, clamp the scroll offset to
`[0, max(0, total_lines - page_height)]`, and return the visible slice
`lines[scroll_offset : scroll_offset + page_height]` joined by newlines,
together with the total line count and the clamped offset. -/
def paginate_content (content : List Char) (scroll_offset : Int) (page_height : Int) :
    List Char × Nat × Int :=
  let lines := splitOnNl content
  let total_lines := lines.length
  let max_offset : Int := max 0 ((total_lines : Int) - page_height)
  let so := max 0 (min scroll_offset max_offset)
  let visible_lines := pySlice lines so (so + page_height)
  (joinNl visible_lines, total_lines, so)

/-!
Markdown/code-fence splitter, from `tui_renderer.py`:
`FENCE_PATTERN = re.compile(r"` ``` `(\w+)?\s*\n(.*?)` ``` `", re.DOTALL)`
and `split_markdown_and_code`. The regular expression is modelled exactly:

* the group `(\w+)?` is greedy; because word characters are neither
  whitespace nor newline, backtracking into a shorter (or empty) word run
  can never make the subsequent `\s*\n` succeed, so the group always takes
  the maximal word run (`None` when it is empty);
* `\s*\n` (greedy `\s*` with backtracking) consumes up to and including
  the *last* newline of the maximal whitespace run that follows; if the
  run has no newline the match at this position fails (shortening `\s*`
  further cannot help, since every character before a later newline in
  the run is whitespace, never a backtick);
* the body group `(.*?)` is lazy under `DOTALL`: the body ends at the
  *first* following occurrence of a triple backtick;
* `finditer` yields leftmost, non-overlapping matches, resuming the scan
  at the end of each match.
-/

/-- Segment type of the splitter: the `TextBlock` and `CodeBlock`
dataclasses of `tui_renderer.py`. -/
inductive Block
  /-- Prose segment `TextBlock(markdown=...)`: arbitrary markdown text. -/
  | text (markdown : List Char)
  /-- Code segment `CodeBlock(language=..., code=...)`: a fenced code block. -/
  | code (language : Option (List Char)) (code : List Char)
deriving DecidableEq, Repr

/-- The triple-backtick fence delimiter. -/
def fenceDelim : List Char := [btick, btick, btick]

/-- Index of the last newline of `l`, if any. -/
def lastNl : List Char → Option Nat
  | [] => none
  | c :: rest =>
    match lastNl rest with
    | some k => some (k + 1)
    | none => if c = '\n' then some 0 else none

/-- Model of the lazy body group `(.*?)` followed by the closing literal
triple backtick: split `l` at the first occurrence of the fence delimiter,
returning the body before it and the remainder after it; `none` when no
closing fence exists. -/
def findClose : List Char → Option (List Char × List Char)
  | [] => none
  | c :: rest =>
    if (c :: rest).take 3 = fenceDelim then some ([], (c :: rest).drop 3)
    else
      match findClose rest with
      | some (body, after) => some (c :: body, after)
      | none => none

/-- Attempt to match `FENCE_PATTERN` at the start of `l`. On success,
returns the language group (`none` when `(\w+)?` matched nothing), the raw
body group, and the remainder of the text after the match. Reading the
pieces: `l.drop 3` is the text after the opening delimiter,
`(l.drop 3).takeWhile pyIsWord` the maximal word run consumed by
`(\w+)?`, `(l.drop 3).dropWhile pyIsWord` the text after it, and `j` the
index of the last newline of the whitespace run consumed by `\s*\n`. -/
def tryMatchAt (l : List Char) : Option (Option (List Char) × List Char × List Char) :=
  if l.take 3 = fenceDelim then
    match lastNl (((l.drop 3).dropWhile pyIsWord).takeWhile pyIsSpace) with
    | none => none
    | some j =>
      match findClose (((l.drop 3).dropWhile pyIsWord).drop (j + 1)) with
      | none => none
      | some (body, rest) =>
        some (if (l.drop 3).takeWhile pyIsWord = [] then none
              else some ((l.drop 3).takeWhile pyIsWord), body, rest)
  else none

/-- Leftmost match of `FENCE_PATTERN` in `l`: the text before the match,
the language group, the raw body group, and the remainder after the match. -/
def findFirstMatch :
    List Char → Option (List Char × Option (List Char) × List Char × List Char)
  | [] => none
  | c :: rest =>
    match tryMatchAt (c :: rest) with
    | some (lang, body, after) => some ([], lang, body, after)
    | none =>
      match findFirstMatch rest with
      | some (before, lang, body, after) => some (c :: before, lang, body, after)
      | none => none

/-- Python `str.strip()`: remove leading and trailing whitespace. The
source only uses its truthiness (`if before.strip():`). -/
def pyStrip (l : List Char) : List Char :=
  ((l.dropWhile pyIsSpace).reverse.dropWhile pyIsSpace).reverse

/-- Python `str.rstrip("\n")`: remove every trailing newline character. -/
def rstripNl (l : List Char) : List Char :=
  (l.reverse.dropWhile (fun c => c = '\n')).reverse

/-- Match-iteration loop of `split_markdown_and_code`, with fuel for
termination; each match strictly shortens the remaining text
(`findFirstMatch_length_lt` below), so `length + 1` fuel always suffices. -/
def splitGoFuel : Nat → List Char → List Block
  | 0, _ => []
  | Nat.succ fuel, l =>
    match findFirstMatch l with
    | none => if pyStrip l = [] then [] else [Block.text l]
    | some (before, lang, body, rest) =>
      (if pyStrip before = [] then [] else [Block.text before]) ++
        Block.code lang (rstripNl body) :: splitGoFuel fuel rest

/-- Model of `split_markdown_and_code(text)` from `tui_renderer.py`:
iterate the fence matches; emit the text before each match as a
`TextBlock` when it is non-empty after `strip()`, the match itself as a
`CodeBlock` with every trailing newline removed from the body
(`rstrip("\n")`), and the trailing text after the last match as a final
`TextBlock` when non-empty after `strip()`. -/
def split_markdown_and_code (l : List Char) : List Block :=
  splitGoFuel (l.length + 1) l

/-- Number of positions of `l` at which the triple-backtick delimiter
occurs (overlapping occurrences counted separately). A text with exactly
one such position contains an opening fence with no possible closing
fence anywhere. -/
def countFence : List Char → Nat
  | [] => 0
  | c :: rest => (if (c :: rest).take 3 = fenceDelim then 1 else 0) + countFence rest

/-!
Key decoder: `get_key`, `Tules-sessions.py` lines 247–273.
-/

/-- Model of `get_key`. The byte source is the sequence of bytes actually
available from stdin; `sys.stdin.read(1)` on an exhausted source returns
the empty string (the spec's "no further bytes available" case). The
decoder returns the same strings as the Python function: `"up"`,
`"down"`, `"pgup"`, `"pgdn"`, or the first character read (the escape
character itself when an escape sequence does not complete), paired with
the bytes left unconsumed. -/
def get_key (input : List Char) : String × List Char :=
  match input with
  | [] => ("", [])
  | ch :: s1 =>
    if ch = '\x1b' then
      match s1 with
      | [] => (String.mk [ch], [])
      | ch2 :: s2 =>
        if ch2 = '[' then
          match s2 with
          | [] => (String.mk [ch], [])
          | ch3 :: s3 =>
            if ch3 = 'A' then ("up", s3)
            else if ch3 = 'B' then ("down", s3)
            else if ch3 = '5' then ("pgup", s3.drop 1)
            else if ch3 = '6' then ("pgdn", s3.drop 1)
            else (String.mk [ch], s3)
        else (String.mk [ch], s2)
    else (String.mk [ch], s1)

/-!
Browser state machine: `interactive_session_browser`,
`Tules-sessions.py` lines 220–438.
-/

/-- Values of the `view_mode` variable: `'list'`, `'detail'` or `'logs'`. -/
inductive ViewMode
  | list
  | detail
  | logs
deriving DecidableEq, Repr

/-- The mutable loop state of `interactive_session_browser`. -/
structure BrowserState where
  view_mode : ViewMode
  selected_idx : Int
  scroll_offset : Int
deriving DecidableEq, Repr

/-- Result of handling one key: continue the loop with a new state, or
leave it (`break`) by quitting, resuming, or forking the session at the
given index. -/
inductive KRes
  | cont (st : BrowserState)
  | quit
  | resume (idx : Int)
  | fork (idx : Int)
deriving DecidableEq, Repr

/-- Key-dispatch `elif` chain of the browse loop (lines 383–433), with
`count` the number of sessions and `page_height` the viewport height
computed before the redraw. Mirrors the Python chain branch for branch. -/
def handle_key (count : Nat) (page_height : Int) (st : BrowserState) (key : String) : KRes :=
  if key = "q" then .quit
  else if key = "up" then
    if st.view_mode = .list then
      .cont { st with selected_idx := max 0 (st.selected_idx - 1) }
    else
      .cont { st with scroll_offset := max 0 (st.scroll_offset - 1) }
  else if key = "down" then
    if st.view_mode = .list then
      .cont { st with selected_idx := min ((count : Int) - 1) (st.selected_idx + 1) }
    else
      .cont { st with scroll_offset := st.scroll_offset + 1 }
  else if key = "pgup" then
    if st.view_mode ≠ .list then
      .cont { st with scroll_offset := max 0 (st.scroll_offset - page_height) }
    else .cont st
  else if key = "pgdn" then
    if st.view_mode ≠ .list then
      .cont { st with scroll_offset := st.scroll_offset + page_height }
    else .cont st
  else if key = "n" then
    if st.view_mode = .detail ∨ st.view_mode = .logs then
      .cont { st with selected_idx := min ((count : Int) - 1) (st.selected_idx + 1),
                      scroll_offset := 0 }
    else .cont st
  else if key = "p" then
    if st.view_mode = .detail ∨ st.view_mode = .logs then
      .cont { st with selected_idx := max 0 (st.selected_idx - 1), scroll_offset := 0 }
    else .cont st
  else if key = "\r" ∨ key = "\n" ∨ key = "v" then
    if st.view_mode = .list then
      .cont { st with view_mode := .detail, scroll_offset := 0 }
    else if st.view_mode = .detail ∨ st.view_mode = .logs then
      .cont { st with view_mode := .list, scroll_offset := 0 }
    else .cont st
  else if key = "l" then
    .cont { st with view_mode := .logs, scroll_offset := 0 }
  else if key = "b" ∧ (st.view_mode = .detail ∨ st.view_mode = .logs) then
    .cont { st with view_mode := .list, scroll_offset := 0 }
  else if key = "r" then .resume st.selected_idx
  else if key = "f" then .fork st.selected_idx
  else .cont st

/-- Redraw pass at the top of the loop body (lines 281–378): in list view
`scroll_offset` is reset to `0` (line 287); in detail and logs view the
offset is replaced by the clamped offset that `paginate_content` returns
for the displayed `content` (lines 330, 365). -/
def redraw_clamp (content : List Char) (page_height : Int) (st : BrowserState) : BrowserState :=
  match st.view_mode with
  | .list => { st with scroll_offset := 0 }
  | _ => { st with scroll_offset := (paginate_content content st.scroll_offset page_height).2.2 }

/-- One observable loop iteration: handle the key, then (when the loop
continues) apply the next redraw's clamping to the state. `content` is the
text displayed in the current non-list view. -/
def browser_step (content : List Char) (count : Nat) (page_height : Int)
    (st : BrowserState) (key : String) : KRes :=
  match handle_key count page_height st key with
  | .cont st' => .cont (redraw_clamp content page_height st')
  | r => r

/-- Observable outcome of `resume_session(session, fork)` (lines 177–190):
`provider.get_resume_command(session.id, fork)` either yields an argument
vector to run, or `None`, upon which the red "forking is not supported"
message is printed and the function returns without running anything. -/
inductive ResumeOutcome
  | notSupportedMessage
  | runsCommand (args : List String)
deriving DecidableEq, Repr

/-- Model of `resume_session`, parameterized by the provider's resume
command (`None` when the provider does not support the request, as
`GeminiProvider.get_resume_command` returns for a fork). -/
def resume_session (resume_command : Option (List String)) : ResumeOutcome :=
  match resume_command with
  | none => .notSupportedMessage
  | some args => .runsCommand args

/-- Observable outcome of one call to `interactive_session_browser`
(lines 220–438) as a function of its environment. -/
structure BrowserRunResult where
  /-- the interactive `while True` loop was entered -/
  entered_loop : Bool
  /-- the non-interactive session table was printed as a fallback -/
  printed_listing : Bool
  /-- an exception escaped the function -/
  raised : Bool
deriving DecidableEq, Repr

/-- Entry control flow of `interactive_session_browser`: no sessions ⇒
message and return (lines 222–224); stdin not a TTY ⇒ fallback static
table and return (lines 228–234); `import tty, termios` fails ⇒ the
`ImportError` handler prints two advisory messages, without the session
table, and returns (lines 435–438); otherwise the interactive loop runs. -/
def interactive_session_browser (has_sessions : Bool) (is_tty : Bool)
    (termios_available : Bool) : BrowserRunResult :=
  if !has_sessions then ⟨false, false, false⟩
  else if !is_tty then ⟨false, true, false⟩
  else if !termios_available then ⟨false, false, false⟩
  else ⟨true, false, false⟩

/-!
Validation of the embedding on concrete inputs. Each splitter example
reproduces the observable output of CPython's `split_markdown_and_code`
on the same input (the segment list, with `group(2).rstrip("\n")` applied
to code bodies).
-/

example : splitOnNl "a\nb".data = [['a'], ['b']] := by decide

example : (paginate_content "a\nb\nc".data 5 1).2.2 = 2 := by decide

example :
    split_markdown_and_code "before\n```python\nprint(1)\n```\nafter".data =
      [Block.text "before\n".data, Block.code (some "python".data) "print(1)".data,
       Block.text "\nafter".data] := by decide

-- the whitespace run after the fence is consumed up to its last newline
example :
    split_markdown_and_code "``` \t\n\nbody```tail".data =
      [Block.code none "body".data, Block.text "tail".data] := by decide

-- a space after the language tag without any following newline prevents a match
example :
    split_markdown_and_code "```py junk\ncode```".data =
      [Block.text "```py junk\ncode```".data] := by decide

-- four backticks: the match is found one position later
example :
    split_markdown_and_code "````\ncode```".data =
      [Block.text [btick], Block.code none "code".data] := by decide

-- six bare backticks: no newline anywhere, no match
example :
    split_markdown_and_code "``````".data =
      [Block.text "``````".data] := by decide

example :
    split_markdown_and_code "```py\n```".data = [Block.code (some "py".data) []] := by decide

example : get_key "\x1b[A".data = ("up", []) := by decide

example : get_key "\x1b".data = ("\x1b", []) := by decide

example : get_key "\x1b[5~q".data = ("pgup", ['q']) := by decide

/-!
Shared helper lemmas.
-/

/-- Unfolding lemma for one iteration of the splitter loop. -/
theorem splitGoFuel_succ (fuel : Nat) (l : List Char) :
    splitGoFuel (fuel + 1) l =
      match findFirstMatch l with
      | none => if pyStrip l = [] then [] else [Block.text l]
      | some (before, lang, body, rest) =>
        (if pyStrip before = [] then [] else [Block.text before]) ++
          Block.code lang (rstripNl body) :: splitGoFuel fuel rest := rfl

/-- The splitter loop emits nothing on an empty remainder. -/
theorem splitGoFuel_nil (fuel : Nat) : splitGoFuel fuel [] = [] := by
  cases fuel with
  | zero => rfl
  | succ fuel => rfl

/-- An empty Python slice: `l[i:i] == []`. -/
theorem pySlice_self {α : Type} (l : List α) (i : Int) : pySlice l i i = [] := by
  simp [pySlice, List.drop_take]

/-- Dropping up to `min k length` is the same as dropping `k`. -/
theorem drop_min_length {α : Type} (l : List α) (k : Nat) :
    l.drop (min k l.length) = l.drop k := by
  rcases le_total k l.length with h | h
  · rw [min_eq_left h]
  · rw [min_eq_right h, List.drop_length]
    exact (List.drop_eq_nil_of_le h).symm

/-- With a non-negative start and a non-negative width, the Python slice
`l[i : i + h]` is plain drop-then-take. -/
theorem pySlice_nonneg {α : Type} (l : List α) (i : Int) (h : Nat) (hi : 0 ≤ i) :
    pySlice l i (i + (h : Int)) = (l.drop i.toNat).take h := by
  simp only [pySlice]
  rw [if_neg (by omega), if_neg (by omega), List.drop_take]
  have hic : (max 0 (min i (l.length : Int))).toNat = min i.toNat l.length := by omega
  have hjc : (max 0 (min (i + (h : Int)) (l.length : Int))).toNat =
      min (i.toNat + h) l.length := by omega
  rw [hic, hjc, drop_min_length, List.take_eq_take, List.length_drop]
  omega

/-!
Claim theorems.
-/

/-- C9 (counterexample): the claim "viewport height h ≤ 0 (including
negative h) yields zero visible lines" is false: with content
`"a\nb\nc"`, requested offset `0` and height `-1`, the slice
`lines[0 : 0 + (-1)] = lines[0:-1]` follows Python's negative-index
semantics and returns the first two lines, so the visible content is
`"a\nb"`, not empty. -/
theorem paginate_negative_height_cx :
    (paginate_content "a\nb\nc".data 0 (-1)).1 = "a\nb".data ∧
      "a\nb".data ≠ ([] : List Char) := by decide

/-- C9 (amended): for every content and requested offset, viewport height
`0` yields zero visible lines (an empty visible slice) rather than an
error; negative heights instead follow Python slice semantics (the end
bound counts from the end of the line list) and can return non-empty
content. -/
theorem paginate_zero_height_empty (c : List Char) (o : Int) :
    (paginate_content c o 0).1 = [] := by
  show joinNl (pySlice (splitOnNl c) _ (_ + (0 : Int))) = []
  rw [Int.add_zero, pySlice_self]
  rfl

/-- C5 (counterexample): the claim "in List view the logs key is a no-op"
is false: from `⟨List, 0, 0⟩` the `'l'` handler (line 422–424) runs
unconditionally and moves the browser to the Logs view. -/
theorem logs_key_list_view_cx :
    handle_key 3 10 ⟨.list, 0, 0⟩ "l" = .cont ⟨.logs, 0, 0⟩ ∧
      KRes.cont (⟨.logs, 0, 0⟩ : BrowserState) ≠ .cont ⟨.list, 0, 0⟩ := by decide

/-- C5 (amended): on the `'l'` key the handler transitions to the Logs
view with `scroll_offset = 0` from every view — from Detail as the
transition table states, but also from List (not a no-op), and in Logs it
stays in Logs with the scroll offset reset to `0` (a no-op only when the
offset was already `0`). -/
theorem logs_key_any_view_to_logs (count : Nat) (page_height : Int) (st : BrowserState) :
    handle_key count page_height st "l" = .cont ⟨.logs, st.selected_idx, 0⟩ := rfl

/-- C4 (counterexample): the claim "on an unsupported fork the loop
continues rather than terminating" is false: the `'f'` handler (lines
431–433) breaks out of the loop unconditionally, so from state
`⟨Detail, 1, 5⟩` it yields the terminal `fork` action, not a
continuation with the unchanged state. -/
theorem fork_unsupported_loop_ends_cx :
    handle_key 3 10 ⟨.detail, 1, 5⟩ "f" = .fork 1 ∧
      KRes.fork 1 ≠ .cont ⟨.detail, 1, 5⟩ := by decide

/-- C4 (amended): when the fork key is pressed and the provider reports
forking unsupported (`get_resume_command` returns `None`),
`resume_session` reports the user-visible "not supported" message and
mutates no view state, but the interactive loop then terminates
unconditionally (the handler breaks after `resume_session` returns),
rather than continuing. -/
theorem fork_unsupported_message_and_exit (count : Nat) (page_height : Int)
    (st : BrowserState) :
    resume_session none = .notSupportedMessage ∧
      handle_key count page_height st "f" = .fork st.selected_idx :=
  ⟨rfl, rfl⟩

/-- C10 (counterexample): the claim "whenever raw mode cannot be entered
the browser falls back to printing a non-interactive session listing" is
false in the termios-missing case: with sessions present, a TTY on stdin
but no termios facility, the `ImportError` handler prints only two
advisory messages and returns without printing the session table. -/
theorem termios_fallback_no_listing_cx :
    interactive_session_browser true true false = ⟨false, false, false⟩ ∧
      (⟨false, false, false⟩ : BrowserRunResult).printed_listing ≠ true := by decide

/-- C10 (amended): whenever raw keyboard mode cannot be entered (stdin is
not a TTY, or the termios facility is missing), the browser never enters
the interactive loop, returns immediately and never lets an exception
escape; the non-interactive session listing, however, is printed only in
the stdin-not-a-TTY case — when termios is missing the fallback prints
advisory messages without the listing. -/
theorem raw_mode_unavailable_fallback (has_sessions is_tty termios_available : Bool) :
    (is_tty = false ∨ termios_available = false →
      (interactive_session_browser has_sessions is_tty termios_available).entered_loop = false) ∧
      (interactive_session_browser has_sessions is_tty termios_available).raised = false ∧
      (has_sessions = true → is_tty = false →
        (interactive_session_browser has_sessions is_tty termios_available).printed_listing
          = true) := by
  cases has_sessions <;> cases is_tty <;> cases termios_available <;> decide

/-- C10 (witness): concrete instances of `raw_mode_unavailable_fallback`. -/
theorem raw_mode_unavailable_fallback_w :
    (interactive_session_browser true true false).entered_loop = false ∧
      (interactive_session_browser true false true).printed_listing = true :=
  ⟨(raw_mode_unavailable_fallback true true false).1 (Or.inr rfl),
    (raw_mode_unavailable_fallback true false true).2.2 rfl rfl⟩

/-- C8: one `get_key` invocation consumes exactly the bytes of one
logical event: `ESC [ A` decodes to `"up"` leaving any further bytes
unread; a lone `ESC` with no further bytes available decodes to the
escape-alone result (the escape character itself is returned, neither
swallowed nor blocking, since `read(1)` on an exhausted source yields
`""` which is not `"["`); and `ESC [ 5 ~` decodes to `"pgup"` with the
trailing `~` byte consumed and discarded. -/
theorem get_key_event_scenarios (rest : List Char) :
    get_key ('\x1b' :: '[' :: 'A' :: rest) = ("up", rest) ∧
      get_key ['\x1b'] = ("\x1b", []) ∧
      get_key ('\x1b' :: '[' :: '5' :: '~' :: rest) = ("pgup", rest) :=
  ⟨rfl, by decide, rfl⟩

/-- C6 (counterexample): the claim "a triple backtick appearing mid-line
never opens a code fence and never produces a Code segment" is false: in
`"a` ``` `py\nprint(1)\n` ``` `"` the only opening fence sits at index 1,
immediately after the character `a` and not at the start of a line, yet
the splitter (whose `FENCE_PATTERN` has no line anchor) matches it and
emits a Code segment. -/
theorem midline_fence_code_cx :
    split_markdown_and_code "a```py\nprint(1)\n```".data =
      [Block.text ['a'], Block.code (some "py".data) "print(1)".data] ∧
      Block.code (some "py".data) "print(1)".data ∈
        split_markdown_and_code "a```py\nprint(1)\n```".data := by decide

/-- C7 (counterexample): the claim "exactly one single trailing line
break is stripped from the emitted code body, a body ending in several
line breaks keeps all but the last" is false: the source applies
`rstrip("\n")`, which removes every trailing newline, so the input
`"` ``` `\nx\n\n\n` ``` `"` (raw body `"x\n\n\n"`) yields the code body
`"x"`, not `"x\n\n"`. -/
theorem rstrip_all_newlines_cx :
    split_markdown_and_code "```\nx\n\n\n```".data = [Block.code none ['x']] ∧
      (['x'] : List Char) ≠ ['x', '\n', '\n'] := by decide

/-!
Helper lemmas about the splitter, used for the general theorems of C3 and
C7.
-/

/-- A character surviving `dropWhile p` at the head falsifies `p`. -/
theorem dropWhile_head?_false (p : Char → Bool) :
    ∀ (l : List Char) (c : Char), (l.dropWhile p).head? = some c → p c = false := by
  intro l
  induction l with
  | nil => intro c h; simp [List.dropWhile] at h
  | cons a t ih =>
    intro c h
    rw [List.dropWhile_cons] at h
    split at h
    · exact ih c h
    · next hpa =>
      simp only [List.head?_cons, Option.some.injEq] at h
      subst h
      simpa using hpa

/-- Python's `rstrip("\n")` leaves no trailing newline. -/
theorem rstripNl_getLast (l : List Char) : (rstripNl l).getLast? ≠ some '\n' := by
  unfold rstripNl
  rw [List.getLast?_reverse]
  intro h
  have := dropWhile_head?_false (fun c => c = '\n') l.reverse '\n' h
  simp at this

/-- Every code body the splitter loop emits has been `rstrip`ped. -/
theorem splitGoFuel_code_no_nl (fuel : Nat) :
    ∀ (l : List Char) (lang : Option (List Char)) (body : List Char),
      Block.code lang body ∈ splitGoFuel fuel l → body.getLast? ≠ some '\n' := by
  induction fuel with
  | zero => intro l lang body h; simp [splitGoFuel] at h
  | succ fuel ih =>
    intro l lang body h
    rw [splitGoFuel_succ] at h
    cases hm : findFirstMatch l with
    | none =>
      rw [hm] at h
      have h' : Block.code lang body ∈
          (if pyStrip l = [] then ([] : List Block) else [Block.text l]) := h
      split at h' <;> simp at h'
    | some m =>
      obtain ⟨before, lang', body', rest⟩ := m
      rw [hm] at h
      rcases List.mem_append.mp h with h1 | h2
      · split at h1 <;> simp at h1
      · rcases List.mem_cons.mp h2 with h3 | h4
        · cases h3
          exact rstripNl_getLast body'
        · exact ih rest lang body h4

/-- Membership of the fence delimiter in a prefix transfers to the list. -/
theorem countFence_cons_le (c : Char) (l : List Char) :
    countFence l ≤ countFence (c :: l) := by
  rw [countFence]
  split <;> omega

/-- Dropping characters never increases the fence-position count. -/
theorem countFence_drop_le (k : Nat) (l : List Char) :
    countFence (l.drop k) ≤ countFence l := by
  induction k generalizing l with
  | zero => simp
  | succ k ih =>
    cases l with
    | nil => simp
    | cons c t =>
      rw [List.drop_succ_cons]
      exact le_trans (ih t) (countFence_cons_le c t)

/-- Same for `dropWhile`. -/
theorem countFence_dropWhile_le (p : Char → Bool) (l : List Char) :
    countFence (l.dropWhile p) ≤ countFence l := by
  induction l with
  | nil => simp [List.dropWhile]
  | cons c t ih =>
    rw [List.dropWhile_cons]
    split
    · exact le_trans ih (countFence_cons_le c t)
    · exact le_refl _

/-- A closing fence found by `findClose` is a fence occurrence. -/
theorem findClose_count :
    ∀ (l : List Char) (pr : List Char × List Char), findClose l = some pr → 1 ≤ countFence l := by
  intro l
  induction l with
  | nil => intro pr h; simp [findClose] at h
  | cons c t ih =>
    intro pr h
    rw [findClose] at h
    split at h
    · next hc => rw [countFence, if_pos hc]; omega
    · next hc =>
      cases hm : findClose t with
      | none => rw [hm] at h; simp at h
      | some pr2 =>
        exact le_trans (ih pr2 hm) (countFence_cons_le c t)

/-- A successful `FENCE_PATTERN` match needs the delimiter at two distinct
positions: one at the match start, one closing the body. -/
theorem tryMatchAt_count (l : List Char) (m : Option (List Char) × List Char × List Char)
    (h : tryMatchAt l = some m) : 2 ≤ countFence l := by
  cases l with
  | nil => simp [tryMatchAt, fenceDelim] at h
  | cons c t =>
    rw [tryMatchAt] at h
    split at h
    · next hfence =>
      split at h
      · simp at h
      · next j hj =>
        split at h
        · simp at h
        · next body rest hclose =>
          have h1 := findClose_count _ _ hclose
          have h2 : countFence ((((c :: t).drop 3).dropWhile pyIsWord).drop (j + 1)) ≤
              countFence ((c :: t).drop 3) :=
            le_trans (countFence_drop_le (j + 1) _) (countFence_dropWhile_le _ _)
          have h3 : countFence ((c :: t).drop 3) ≤ countFence t := by
            rw [List.drop_succ_cons]
            exact countFence_drop_le 2 t
          rw [countFence, if_pos hfence]
          omega
    · simp at h

/-- A leftmost match likewise needs two delimiter positions. -/
theorem findFirstMatch_count :
    ∀ (l : List Char) (m : List Char × Option (List Char) × List Char × List Char),
      findFirstMatch l = some m → 2 ≤ countFence l := by
  intro l
  induction l with
  | nil => intro m h; simp [findFirstMatch] at h
  | cons c t ih =>
    intro m h
    rw [findFirstMatch] at h
    cases htm : tryMatchAt (c :: t) with
    | some m2 => exact tryMatchAt_count _ m2 htm
    | none =>
      rw [htm] at h
      cases hf : findFirstMatch t with
      | none => rw [hf] at h; simp at h
      | some m2 => exact le_trans (ih m2 hf) (countFence_cons_le c t)

/-- A text containing a fence occurrence contains a backtick. -/
theorem countFence_pos_btick_mem : ∀ (l : List Char), 1 ≤ countFence l → btick ∈ l := by
  intro l
  induction l with
  | nil => intro h; simp [countFence] at h
  | cons c t ih =>
    intro h
    rw [countFence] at h
    split at h
    · next hc =>
      rw [List.take_succ_cons] at hc
      rw [show fenceDelim = btick :: [btick, btick] from rfl] at hc
      injection hc with h1 h2
      rw [h1]
      exact List.mem_cons_self btick t
    · exact List.mem_cons_of_mem c (ih (by omega))

/-- Non-matching elements survive `dropWhile`. -/
theorem mem_dropWhile_of_mem (p : Char → Bool) :
    ∀ (l : List Char) (c : Char), c ∈ l → p c = false → c ∈ l.dropWhile p := by
  intro l
  induction l with
  | nil => intro c h _; simp at h
  | cons a t ih =>
    intro c h hc
    rw [List.dropWhile_cons]
    split
    · next hpa =>
      rcases List.mem_cons.mp h with rfl | hm
      · rw [hc] at hpa; simp at hpa
      · exact ih c hm hc
    · exact h

/-- A list containing a non-whitespace character does not `strip()` to
the empty string. -/
theorem pyStrip_ne_nil (l : List Char) (c : Char) (hc : pyIsSpace c = false) (h : c ∈ l) :
    pyStrip l ≠ [] := by
  unfold pyStrip
  intro hs
  rw [List.reverse_eq_nil_iff, List.dropWhile_eq_nil_iff] at hs
  have h1 : c ∈ (l.dropWhile pyIsSpace).reverse := by
    rw [List.mem_reverse]
    exact mem_dropWhile_of_mem pyIsSpace l c h hc
  have h2 := hs c h1
  rw [hc] at h2
  simp at h2

/-- C3: for every input text containing exactly one occurrence of the
triple-backtick delimiter — an opening fence with no possible closing
delimiter anywhere after it — the splitter matches nothing (a match
requires delimiter occurrences at two distinct positions), emits no Code
segment, consumes nothing, and returns the entire input verbatim as
exactly one Prose segment. Instantiated at `"before\n` ``` `python\nprint(1)"`
by the witness below. -/
theorem unterminated_fence_single_prose (l : List Char) (h : countFence l = 1) :
    split_markdown_and_code l = [Block.text l] := by
  have hnone : findFirstMatch l = none := by
    cases hm : findFirstMatch l with
    | none => rfl
    | some m => exact absurd h (by have := findFirstMatch_count l m hm; omega)
  have hmem : btick ∈ l := countFence_pos_btick_mem l (by omega)
  have hstrip : pyStrip l ≠ [] := pyStrip_ne_nil l btick (by decide) hmem
  unfold split_markdown_and_code
  rw [splitGoFuel_succ, hnone]
  rw [if_neg hstrip]

/-- C3 (witness): the claim's concrete unterminated-fence input. -/
theorem unterminated_fence_single_prose_w :
    countFence "before\n```python\nprint(1)".data = 1 ∧
      split_markdown_and_code "before\n```python\nprint(1)".data =
        [Block.text "before\n```python\nprint(1)".data] :=
  ⟨by decide, unterminated_fence_single_prose _ (by decide)⟩

/-- C7 (amended): for every matched fence, *all* trailing line breaks are
stripped from the emitted code body (the source applies `rstrip("\n")`):
a body whose text ends in several consecutive line breaks loses every one
of them, so no emitted code body ends in a line break. -/
theorem code_body_no_trailing_newline (l : List Char) (lang : Option (List Char))
    (body : List Char) (h : Block.code lang body ∈ split_markdown_and_code l) :
    body.getLast? ≠ some '\n' :=
  splitGoFuel_code_no_nl (l.length + 1) l lang body h

/-- C7 (witness): the emitted body of the multi-newline fence input. -/
theorem code_body_no_trailing_newline_w :
    Block.code none ['x'] ∈ split_markdown_and_code "```\nx\n\n\n```".data ∧
      (['x'] : List Char).getLast? ≠ some '\n' :=
  ⟨by decide, code_body_no_trailing_newline "```\nx\n\n\n```".data none ['x'] (by decide)⟩

/-- C6 (amended): the fence pattern is not anchored to line starts: a
triple backtick can open a fence at any position, including mid-line.
For every character `c` that is not a backtick (so the delimiter still
sits at index 1, mid-line) and not whitespace (so the one-character
prose before it survives `strip()`), splitting `c` followed by
`"` ``` `py\nprint(1)\n` ``` `"` emits that one-character Prose segment and a
Code segment opened by the mid-line triple backtick. -/
theorem midline_fence_opens_code (c : Char) (hb : c ≠ btick) (hs : pyIsSpace c = false) :
    split_markdown_and_code (c :: "```py\nprint(1)\n```".data) =
      [Block.text [c], Block.code (some "py".data) "print(1)".data] := by
  have hfence : ¬ ((c :: "```py\nprint(1)\n```".data).take 3 = fenceDelim) := by
    rw [List.take_succ_cons,
      show "```py\nprint(1)\n```".data.take 2 = [btick, btick] from by decide]
    intro hf
    rw [show fenceDelim = btick :: [btick, btick] from rfl] at hf
    injection hf with h1 _
    exact hb h1
  have htry : tryMatchAt (c :: "```py\nprint(1)\n```".data) = none := by
    rw [tryMatchAt, if_neg hfence]
  have hff : findFirstMatch "```py\nprint(1)\n```".data =
      some ([], some "py".data, "print(1)\n".data, []) := by decide
  have hffc : findFirstMatch (c :: "```py\nprint(1)\n```".data) =
      some ([c], some "py".data, "print(1)\n".data, []) := by
    rw [findFirstMatch]
    simp only [htry, hff]
  have hstrip : pyStrip [c] = [c] := by
    simp [pyStrip, List.dropWhile_cons, hs]
  unfold split_markdown_and_code
  rw [List.length_cons, splitGoFuel_succ]
  simp only [hffc, hstrip]
  rw [if_neg (List.cons_ne_nil c [])]
  rw [show rstripNl "print(1)\n".data = "print(1)".data from by decide]
  rw [splitGoFuel_nil]
  rfl

/-- C6 (witness): instantiation of `midline_fence_opens_code` at `'a'`. -/
theorem midline_fence_opens_code_w :
    ('a' ≠ btick ∧ pyIsSpace 'a' = false) ∧
      split_markdown_and_code ('a' :: "```py\nprint(1)\n```".data) =
        [Block.text ['a'], Block.code (some "py".data) "print(1)".data] :=
  ⟨⟨by decide, by decide⟩, midline_fence_opens_code 'a' (by decide) (by decide)⟩

/-- C1: for every content, integer requested offset `o` and viewport
height `h` (a line count), `paginate_content` returns exactly the triple
the specification describes: the total line count of the naive
newline split, the clamped offset
`eff = max 0 (min o (max 0 (totalLines - h)))`, and as visible content
the line slice `[eff, eff + h)` joined by newlines, unpadded when fewer
than `h` lines remain. (Non-positive heights, where the slice formula
diverges from the code, are the subject of C9.) -/
theorem paginate_content_spec (c : List Char) (o : Int) (h : Nat) :
    paginate_content c o (h : Int) =
      (joinNl (((splitOnNl c).drop
          (max 0 (min o (max 0 (((splitOnNl c).length : Int) - (h : Int))))).toNat).take h),
        (splitOnNl c).length,
        max 0 (min o (max 0 (((splitOnNl c).length : Int) - (h : Int))))) := by
  simp only [paginate_content]
  rw [pySlice_nonneg _ _ _ (le_max_left _ _)]

/-- C2: the claim's state-machine scenario, over any detail content of 25
lines, with 3 sessions and viewport height 10: from
`⟨List, selectedIndex 0, scrollOffset 0⟩`, three Down events leave
`selectedIndex = 2` (clamped at `sessionCount - 1 = 2`, not 3); Enter
moves to the Detail view with `scrollOffset = 0`; a first PageDown sets
`scrollOffset` to 10, and a second one to 15 — clamped by the paginator at
the next redraw to `maxOffset = 25 - 10 = 15`, not 20. -/
theorem browser_scenario_nav (c : List Char) (h25 : (splitOnNl c).length = 25) :
    browser_step c 3 10 ⟨.list, 0, 0⟩ "down" = .cont ⟨.list, 1, 0⟩ ∧
      browser_step c 3 10 ⟨.list, 1, 0⟩ "down" = .cont ⟨.list, 2, 0⟩ ∧
      browser_step c 3 10 ⟨.list, 2, 0⟩ "down" = .cont ⟨.list, 2, 0⟩ ∧
      browser_step c 3 10 ⟨.list, 2, 0⟩ "\r" = .cont ⟨.detail, 2, 0⟩ ∧
      browser_step c 3 10 ⟨.detail, 2, 0⟩ "pgdn" = .cont ⟨.detail, 2, 10⟩ ∧
      browser_step c 3 10 ⟨.detail, 2, 10⟩ "pgdn" = .cont ⟨.detail, 2, 15⟩ := by
  refine ⟨rfl, rfl, rfl, ?_, ?_, ?_⟩ <;>
  · show KRes.cont ⟨.detail, 2,
        max 0 (min _ (max 0 (((splitOnNl c).length : Int) - 10)))⟩ = _
    rw [h25]
    decide

/-- C2 (witness): a concrete 25-line content, `"x"` on every line. -/
theorem browser_scenario_nav_w :
    (splitOnNl (joinNl (List.replicate 25 ['x']))).length = 25 ∧
      browser_step (joinNl (List.replicate 25 ['x'])) 3 10 ⟨.detail, 2, 10⟩ "pgdn" =
        .cont ⟨.detail, 2, 15⟩ :=
  ⟨by decide, (browser_scenario_nav (joinNl (List.replicate 25 ['x'])) (by decide)).2.2.2.2.2⟩

/-!
Fuel adequacy for `splitGoFuel`: every successful match strictly shortens
the remaining text, so starting the loop with `length + 1` fuel can never
exhaust it; the fuel formulation is therefore equivalent to the
unbounded Python iteration.
-/

/-- Closing-fence search consumes the body and the three delimiter
characters. -/
theorem findClose_length :
    ∀ (l b r : List Char), findClose l = some (b, r) → r.length + 3 ≤ l.length := by
  intro l
  induction l with
  | nil => intro b r h; simp [findClose] at h
  | cons c t ih =>
    intro b r h
    rw [findClose] at h
    split at h
    · next hc =>
      cases h
      have h3 : 3 ≤ (c :: t).length := by
        have h0 := congrArg List.length hc
        rw [List.length_take, show fenceDelim.length = 3 from rfl] at h0
        omega
      have h5 := List.length_drop 3 (c :: t)
      omega
    · cases hm : findClose t with
      | none => rw [hm] at h; simp at h
      | some pr2 =>
        obtain ⟨b2, r2⟩ := pr2
        rw [hm] at h
        cases h
        have := ih _ _ hm
        simp only [List.length_cons]
        omega

/-- A successful match at a position leaves strictly fewer characters. -/
theorem tryMatchAt_length (l : List Char) (lang : Option (List Char)) (body rest : List Char)
    (h : tryMatchAt l = some (lang, body, rest)) : rest.length < l.length := by
  rw [tryMatchAt] at h
  split at h
  · next hfence =>
    split at h
    · simp at h
    · next j hj =>
      split at h
      · simp at h
      · next body' rest' hclose =>
        cases h
        have h1 := findClose_length _ _ _ hclose
        have h2 := List.length_drop (j + 1) ((l.drop 3).dropWhile pyIsWord)
        have h3 : ((l.drop 3).dropWhile pyIsWord).length ≤ (l.drop 3).length :=
          (List.dropWhile_sublist pyIsWord).length_le
        have h4 : 3 ≤ l.length := by
          have h0 := congrArg List.length hfence
          rw [List.length_take, show fenceDelim.length = 3 from rfl] at h0
          omega
        have h5 := List.length_drop 3 l
        omega
  · simp at h

/-- The leftmost match leaves strictly fewer characters than the input. -/
theorem findFirstMatch_length_lt :
    ∀ (l before : List Char) (lang : Option (List Char)) (body rest : List Char),
      findFirstMatch l = some (before, lang, body, rest) → rest.length < l.length := by
  intro l
  induction l with
  | nil => intro b lg bd r h; simp [findFirstMatch] at h
  | cons c t ih =>
    intro b lg bd r h
    rw [findFirstMatch] at h
    cases htm : tryMatchAt (c :: t) with
    | some m2 =>
      obtain ⟨lang2, body2, after2⟩ := m2
      rw [htm] at h
      cases h
      exact tryMatchAt_length _ _ _ _ htm
    | none =>
      rw [htm] at h
      cases hf : findFirstMatch t with
      | none => rw [hf] at h; simp at h
      | some m2 =>
        obtain ⟨before2, lang2, body2, after2⟩ := m2
        rw [hf] at h
        cases h
        have := ih _ _ _ _ hf
        simp only [List.length_cons]
        omega

end Tules
